import Mathlib

/-!
Shallow embedding of the repository's two verified components:

* `src/src/BehavioralPatterns/Memento.ts` — a document editor with
  undo/redo and named checkpoints (`Document`, `DocumentMemento`,
  `UndoRedoManager`).
* The retry-strategy example in the same file (`RetryStrategy`,
  `FailFastStrategy`, `FixedRetryStrategy`, `ExponentialBackoffStrategy`,
  `ApiClient.request`, `fetchWithRetry`).

TypeScript mutation is rendered as explicit state passing: a method that
mutates `this` and returns a `boolean` becomes a function returning
`Bool × State × Document`.  JS numbers only ever hold exact small values
here, so they are modelled as `ℚ` (document formatting attributes) or
`Nat` (delays, attempt counters).  The `timestamp` field of
`DocumentMemento` is a `Date.now()` clock read that no operation or claim
ever observes, so it is not modelled.
-/

namespace DesignPatterns

/-- The observable state of a document, mirroring the `DocumentState`
interface of Memento.ts. -/
structure DocumentState where
  content : String
  fontSize : ℚ
  lineSpacing : ℚ
  fontFamily : String
deriving DecidableEq, Repr

/-- `DocumentMemento` stores one immutable snapshot (the `Date.now()`
timestamp is not modelled; nothing reads it). -/
structure DocumentMemento where
  state : DocumentState
deriving DecidableEq, Repr

/-- Controlled accessor mirroring `DocumentMemento.getState`. -/
def DocumentMemento.getState (m : DocumentMemento) : DocumentState :=
  m.state

/-- The originator: a document with text content and formatting fields,
mirroring class `Document` of Memento.ts. -/
structure Document where
  content : String
  fontSize : ℚ
  lineSpacing : ℚ
  fontFamily : String
deriving DecidableEq, Repr

/-- A freshly constructed `Document` (field initializers of the class). -/
def Document.new : Document :=
  ⟨"", 12, 3 / 2, "Arial"⟩

def Document.setText (d : Document) (c : String) : Document :=
  ⟨c, d.fontSize, d.lineSpacing, d.fontFamily⟩

def Document.getText (d : Document) : String :=
  d.content

def Document.setFontSize (d : Document) (s : ℚ) : Document :=
  ⟨d.content, s, d.lineSpacing, d.fontFamily⟩

def Document.setLineSpacing (d : Document) (s : ℚ) : Document :=
  ⟨d.content, d.fontSize, s, d.fontFamily⟩

def Document.setFontFamily (d : Document) (f : String) : Document :=
  ⟨d.content, d.fontSize, d.lineSpacing, f⟩

/-- `Document.createMemento`: snapshot all four fields. -/
def Document.createMemento (d : Document) : DocumentMemento :=
  ⟨⟨d.content, d.fontSize, d.lineSpacing, d.fontFamily⟩⟩

/-- `Document.restoreFromMemento`: overwrite all four fields from the
snapshot (the prior document contributes nothing). -/
def Document.restoreFromMemento (_d : Document) (m : DocumentMemento) : Document :=
  ⟨m.state.content, m.state.fontSize, m.state.lineSpacing, m.state.fontFamily⟩

/-- Debug accessor mirroring `Document.getState`. -/
def Document.getState (d : Document) : DocumentState :=
  ⟨d.content, d.fontSize, d.lineSpacing, d.fontFamily⟩

/-- The caretaker, mirroring class `UndoRedoManager`.  JS array `push`/`pop`
act on the end of the array; here the head of each list is the top of the
stack (most recently pushed).  The `Map<string, DocumentMemento>` becomes
an association list with `Map.get`/`Map.set` semantics. -/
structure UndoRedoManager where
  undoStack : List DocumentMemento
  redoStack : List DocumentMemento
  checkpoints : List (String × DocumentMemento)
deriving DecidableEq, Repr

/-- A freshly constructed manager: both stacks and the checkpoint map empty. -/
def UndoRedoManager.empty : UndoRedoManager :=
  ⟨[], [], []⟩

/-- `Map.set` semantics: replace the value of an existing key in place,
otherwise append the new binding. -/
def mapSet (l : List (String × DocumentMemento)) (k : String) (v : DocumentMemento) :
    List (String × DocumentMemento) :=
  match l with
  | [] => [(k, v)]
  | (k0, v0) :: rest => if k0 == k then (k0, v) :: rest else (k0, v0) :: mapSet rest k v

/-- `saveState`: clear the redo stack, push a snapshot of the current
document state onto the undo stack. -/
def UndoRedoManager.saveState (m : UndoRedoManager) (d : Document) : UndoRedoManager :=
  ⟨d.createMemento :: m.undoStack, [], m.checkpoints⟩

/-- `undo`: fail on an empty undo stack; otherwise push the current state
onto redo, pop the last undo entry and restore it into the document. -/
def UndoRedoManager.undo (m : UndoRedoManager) (d : Document) :
    Bool × UndoRedoManager × Document :=
  match m.undoStack with
  | [] => (false, m, d)
  | mem :: rest =>
      (true, ⟨rest, d.createMemento :: m.redoStack, m.checkpoints⟩,
       d.restoreFromMemento mem)

/-- `redo`: symmetric to `undo`, driven by the redo stack. -/
def UndoRedoManager.redo (m : UndoRedoManager) (d : Document) :
    Bool × UndoRedoManager × Document :=
  match m.redoStack with
  | [] => (false, m, d)
  | mem :: rest =>
      (true, ⟨d.createMemento :: m.undoStack, rest, m.checkpoints⟩,
       d.restoreFromMemento mem)

/-- `createCheckpoint`: store a snapshot under `nm`, overwriting any prior
snapshot with that name. -/
def UndoRedoManager.createCheckpoint (m : UndoRedoManager) (nm : String) (d : Document) :
    UndoRedoManager :=
  ⟨m.undoStack, m.redoStack, mapSet m.checkpoints nm d.createMemento⟩

/-- `restoreCheckpoint`: fail on an unknown name; otherwise push the
current state onto undo, clear redo and restore the checkpoint snapshot. -/
def UndoRedoManager.restoreCheckpoint (m : UndoRedoManager) (nm : String) (d : Document) :
    Bool × UndoRedoManager × Document :=
  match List.lookup nm m.checkpoints with
  | none => (false, m, d)
  | some mem =>
      (true, ⟨d.createMemento :: m.undoStack, [], m.checkpoints⟩,
       d.restoreFromMemento mem)

/-- `listCheckpoints`: the stored checkpoint names. -/
def UndoRedoManager.listCheckpoints (m : UndoRedoManager) : List String :=
  m.checkpoints.map Prod.fst

/-- `deleteCheckpoint`: remove the binding for `nm`, reporting whether it
was present. -/
def UndoRedoManager.deleteCheckpoint (m : UndoRedoManager) (nm : String) :
    Bool × UndoRedoManager :=
  (m.checkpoints.any (fun p => p.1 == nm),
   ⟨m.undoStack, m.redoStack, m.checkpoints.filter (fun p => p.1 != nm)⟩)

/-- `clearHistory`: drop both stacks and all checkpoints. -/
def UndoRedoManager.clearHistory (_ : UndoRedoManager) : UndoRedoManager :=
  ⟨[], [], []⟩

/-- `getStats`: sizes of the two stacks and the checkpoint map. -/
def UndoRedoManager.getStats (m : UndoRedoManager) : Nat × Nat × Nat :=
  (m.undoStack.length, m.redoStack.length, m.checkpoints.length)

/-- The caller pattern of the demo scenarios: for each content in `cs`,
set the document text and then call `saveState`. -/
def saveStates (m : UndoRedoManager) (d : Document) (cs : List String) :
    UndoRedoManager × Document :=
  match cs with
  | [] => (m, d)
  | c :: rest =>
      let d1 := d.setText c
      saveStates (m.saveState d1) d1 rest

/-- Perform `n` consecutive `undo` calls, discarding the boolean results
(as the demo scenarios do). -/
def undoN : Nat → UndoRedoManager → Document → UndoRedoManager × Document
  | 0, m, d => (m, d)
  | n + 1, m, d =>
      let r := m.undo d
      undoN n r.2.1 r.2.2

/-- The `RetryStrategy` interface: whether to retry a failed attempt, and
how long (ms) to wait before it.  `ε` models the TS `unknown` error type. -/
structure RetryStrategy (ε : Type) where
  shouldRetry : ε → Nat → Bool
  getDelay : Nat → Nat

/-- `FailFastStrategy`: never retry, zero delay. -/
def FailFastStrategy (ε : Type) : RetryStrategy ε :=
  ⟨fun _ _ => false, fun _ => 0⟩

/-- `FixedRetryStrategy`: retry while `attempt < maxRetries`, constant delay. -/
def FixedRetryStrategy (ε : Type) (maxRetries delayMs : Nat) : RetryStrategy ε :=
  ⟨fun _ attempt => decide (attempt < maxRetries), fun _ => delayMs⟩

/-- `ExponentialBackoffStrategy`: retry while `attempt < maxRetries`,
delay `baseDelay * 2 ^ attempt`. -/
def ExponentialBackoffStrategy (ε : Type) (maxRetries baseDelay : Nat) : RetryStrategy ε :=
  ⟨fun _ attempt => decide (attempt < maxRetries), fun attempt => baseDelay * 2 ^ attempt⟩

/-- `ApiClient.request`: run `fn`; on failure ask the policy whether to
retry at the current attempt index; if yes, wait and loop with
`attempt + 1`, otherwise rethrow the original error.  The outcome of the
call at attempt index `a` is `fn a`; the returned pair carries the value
of the `attempt` loop variable at exit, so the result records at which
attempt the loop stopped.  The extra `Nat` is fuel: `none` means the
loop did not terminate within the supplied fuel. -/
def ApiClient.request {ε α : Type} (s : RetryStrategy ε) (fn : Nat → Except ε α) :
    Nat → Nat → Option (Except ε α × Nat)
  | 0, _ => none
  | fuel + 1, attempt =>
      match fn attempt with
      | Except.ok v => some (Except.ok v, attempt)
      | Except.error e =>
          if s.shouldRetry e attempt then
            ApiClient.request s fn fuel (attempt + 1)
          else
            some (Except.error e, attempt)

/-- Failure kinds of `fetchWithRetry`: the `AbortError` DOMException vs an
error of the operation itself (`fetch` rejection, non-ok response,
`json()` failure), identified by a code. -/
inductive RErr where
  | abortError : RErr
  | opError : Nat → RErr
deriving DecidableEq, Repr

/-- Overall outcome of one run of the `execute` closure. -/
inductive RunResult where
  | success : Nat → RunResult
  | failure : RErr → RunResult
deriving DecidableEq, Repr

/-- The cooperative-cancellation environment of one `execute` run.  The
abort signal is sampled at three observation points per loop iteration
(iteration `k` runs with `attempt = k`):

* `preAborted k` — `signal.aborted` at the check before attempt `k`;
* `fetchResult k` — the outcome of the `fetch`/`response.ok`/`json()`
  composite at attempt `k` (its error may itself be the `AbortError` that
  `fetch` raises when aborted mid-flight);
* `catchAborted k` — `signal.aborted` at the check inside the catch block
  of iteration `k`;
* `waitAborted k` — whether the abort event fires during the delay wait
  of iteration `k` (rejecting the wait with an `AbortError`). -/
structure AbortTrace where
  preAborted : Nat → Bool
  fetchResult : Nat → Except RErr Nat
  catchAborted : Nat → Bool
  waitAborted : Nat → Bool

/-- Once set, an `AbortSignal` stays set: each observation point sees at
least what the previous one (pre → catch → wait → next pre) saw. -/
def AbortTrace.Monotone (t : AbortTrace) : Prop :=
  (∀ k, t.preAborted k = true → t.catchAborted k = true) ∧
  (∀ k, t.catchAborted k = true → t.waitAborted k = true) ∧
  (∀ k, t.waitAborted k = true → t.preAborted (k + 1) = true)

/-- The `execute` closure of `fetchWithRetry`, instrumented: the first
component is the run's outcome (`none` = fuel exhausted), the second the
list of attempt indices at which the operation was actually started.
Each iteration: abort check before the attempt (throw `AbortError`); run
the operation; on failure, rethrow it unchanged if the signal is now
aborted; rethrow it if the policy declines; otherwise wait (an abort
during the wait throws `AbortError`) and loop with `attempt + 1`. -/
def fetchRun (strat : RetryStrategy RErr) (t : AbortTrace) :
    Nat → Nat → Option RunResult × List Nat
  | 0, _ => (none, [])
  | fuel + 1, attempt =>
      if t.preAborted attempt then (some (RunResult.failure RErr.abortError), [])
      else
        match t.fetchResult attempt with
        | Except.ok v => (some (RunResult.success v), [attempt])
        | Except.error e =>
            if t.catchAborted attempt then (some (RunResult.failure e), [attempt])
            else if strat.shouldRetry e attempt then
              if t.waitAborted attempt then
                (some (RunResult.failure RErr.abortError), [attempt])
              else
                let r := fetchRun strat t fuel (attempt + 1)
                (r.1, attempt :: r.2)
            else (some (RunResult.failure e), [attempt])

/-- The observable result of `fetchWithRetry`'s `execute` closure. -/
def fetchWithRetry (strat : RetryStrategy RErr) (t : AbortTrace)
    (fuel attempt : Nat) : Option RunResult :=
  (fetchRun strat t fuel attempt).1

/-- Sample snapshot/manager/document inputs used by the witnesses. -/
def sampleState : DocumentState :=
  ⟨"x", 12, 3 / 2, "Arial"⟩

def sampleMem : DocumentMemento :=
  ⟨sampleState⟩

def sampleDoc : Document :=
  ⟨"y", 14, 2, "Georgia"⟩

def sampleMgr : UndoRedoManager :=
  ⟨[sampleMem], [sampleMem], [("cp", sampleMem)]⟩

/-- A trace whose signal is aborted before the run even starts. -/
def abortedTrace : AbortTrace :=
  ⟨fun _ => true, fun _ => Except.error (RErr.opError 0), fun _ => true, fun _ => true⟩

/-- A trace where the operation fails at attempt 0 with the signal still
unset at the catch check, and the abort event then fires during the
delay wait of that iteration. -/
def waitTrace : AbortTrace :=
  ⟨fun k => decide (1 ≤ k), fun _ => Except.error (RErr.opError 3),
   fun k => decide (1 ≤ k), fun _ => true⟩

/-- A trace where the operation fails at attempt 0, the wait of iteration
0 completes undisturbed, and the signal is set in the gap before the
pre-attempt check of iteration 1. -/
def gapTrace : AbortTrace :=
  ⟨fun k => decide (1 ≤ k), fun _ => Except.error (RErr.opError 5),
   fun k => decide (1 ≤ k), fun k => decide (1 ≤ k)⟩

/-- A trace where the operation fails with its own error at attempt 0 and
the signal is first observed aborted at the catch-block check of that
same iteration (set during the attempt, after the failure arose). -/
def ceTrace : AbortTrace :=
  ⟨fun k => decide (1 ≤ k), fun _ => Except.error (RErr.opError 7),
   fun _ => true, fun _ => true⟩

/-- Claim C1 (code evaluation at the failing input): after `saveState`
with contents "A", "B", "C" on a fresh document and manager, a single
`undo` leaves the document reading "C", not "B" as the claim and the
demo comments of Memento.ts (lines 220–227) state: `saveState` snapshots
the post-edit state, so the first `undo` restores the state saved by the
most recent call.  A second `undo` reads "B" (claim: "A") and a `redo`
then reads "C" (claim: "B"). -/
theorem C1_undo_restores_latest_save :
    (undoN 1 (saveStates UndoRedoManager.empty Document.new ["A", "B", "C"]).1
       (saveStates UndoRedoManager.empty Document.new ["A", "B", "C"]).2).2.getText = "C"
  ∧ (undoN 2 (saveStates UndoRedoManager.empty Document.new ["A", "B", "C"]).1
       (saveStates UndoRedoManager.empty Document.new ["A", "B", "C"]).2).2.getText = "B"
  ∧ ((undoN 2 (saveStates UndoRedoManager.empty Document.new ["A", "B", "C"]).1
        (saveStates UndoRedoManager.empty Document.new ["A", "B", "C"]).2).1.redo
      (undoN 2 (saveStates UndoRedoManager.empty Document.new ["A", "B", "C"]).1
        (saveStates UndoRedoManager.empty Document.new ["A", "B", "C"]).2).2).2.2.getText = "C"
  ∧ "C" ≠ "B" := by
  refine ⟨rfl, rfl, rfl, ?_⟩
  decide

/-- Claim C2 (counterexample): with `FixedRetryStrategy` at max 3 and an
operation failing at every attempt (the error value recording the attempt
index), `ApiClient.request` exits with the error raised at attempt index
3 — a 4th call to the operation — not the error of attempt 2 as the
claim ("attempts 0, 1 and 2 … without a 4th attempt") requires. -/
theorem C2_counterexample :
    ApiClient.request (FixedRetryStrategy Nat 3 500)
        (fun a => (Except.error a : Except Nat Nat)) 10 0
      = some (Except.error 3, 3)
  ∧ some ((Except.error 3 : Except Nat Nat), 3) ≠ some (Except.error 2, 2) := by
  refine ⟨rfl, ?_⟩
  simp

/-- Claim C2 (amended): with max = 3 and an operation that fails on every
attempt, the wrapper runs attempt indices 0, 1, 2 and 3 — one initial
attempt plus three retries — and then surfaces the error raised at
attempt 3 unchanged, without a 5th attempt (the exit attempt counter is
3, and the result only depends on the first four outcomes). -/
theorem C2_fixed_max3_four_attempts {ε α : Type} (err : Nat → ε) (d k : Nat) :
    ApiClient.request (FixedRetryStrategy ε 3 d)
        (fun a => (Except.error (err a) : Except ε α)) (k + 4) 0
      = some (Except.error (err 3), 3) := rfl

/-- Claim C3: the exponential policy's delay at attempt `a` is
`base * 2 ^ a`, the fixed policy's delay is the same constant at every
attempt, and the never-retry policy declines every error at every
attempt. -/
theorem C3_strategy_contract (ε : Type) (mrE mrF base d a : Nat) (e : ε) :
    (ExponentialBackoffStrategy ε mrE base).getDelay a = base * 2 ^ a
  ∧ (FixedRetryStrategy ε mrF d).getDelay a = d
  ∧ (FailFastStrategy ε).shouldRetry e a = false :=
  ⟨rfl, rfl, rfl⟩

/-- Claim C4: every state-mutating history action — a `saveState` call or
a successful `restoreCheckpoint` — leaves the redo stack empty, so a
`redo` issued immediately afterwards fails. -/
theorem C4_mutations_clear_redo (m : UndoRedoManager) (d d2 : Document) (nm : String) :
    ((m.saveState d).redoStack = [] ∧ ((m.saveState d).redo d2).1 = false)
  ∧ ((m.restoreCheckpoint nm d).1 = true →
       (m.restoreCheckpoint nm d).2.1.redoStack = []
     ∧ ((m.restoreCheckpoint nm d).2.1.redo d2).1 = false) := by
  refine ⟨⟨rfl, rfl⟩, ?_⟩
  intro h
  cases hl : List.lookup nm m.checkpoints with
  | none => simp [UndoRedoManager.restoreCheckpoint, hl] at h
  | some mem =>
      exact ⟨by simp [UndoRedoManager.restoreCheckpoint, hl],
             by simp [UndoRedoManager.restoreCheckpoint, UndoRedoManager.redo, hl]⟩

theorem C4_witness :
    ((sampleMgr.saveState sampleDoc).redoStack = []
     ∧ ((sampleMgr.saveState sampleDoc).redo sampleDoc).1 = false)
  ∧ ((sampleMgr.restoreCheckpoint "cp" sampleDoc).2.1.redoStack = []
     ∧ ((sampleMgr.restoreCheckpoint "cp" sampleDoc).2.1.redo sampleDoc).1 = false) :=
  ⟨(C4_mutations_clear_redo sampleMgr sampleDoc sampleDoc "cp").1,
   (C4_mutations_clear_redo sampleMgr sampleDoc sampleDoc "cp").2 rfl⟩

/-- Claim C5: `restoreCheckpoint` on an unknown name fails and changes
nothing (stacks, checkpoint map and document all unchanged); on a stored
name it pushes the current state onto undo, clears redo, applies the
checkpoint snapshot to the document and succeeds. -/
theorem C5_restoreCheckpoint_contract (m : UndoRedoManager) (nm : String) (d : Document) :
    (List.lookup nm m.checkpoints = none → m.restoreCheckpoint nm d = (false, m, d))
  ∧ (∀ mem, List.lookup nm m.checkpoints = some mem →
       m.restoreCheckpoint nm d =
         (true, ⟨d.createMemento :: m.undoStack, [], m.checkpoints⟩,
          d.restoreFromMemento mem)) := by
  constructor
  · intro h; simp [UndoRedoManager.restoreCheckpoint, h]
  · intro mem h; simp [UndoRedoManager.restoreCheckpoint, h]

theorem C5_witness :
    sampleMgr.restoreCheckpoint "nope" sampleDoc = (false, sampleMgr, sampleDoc)
  ∧ sampleMgr.restoreCheckpoint "cp" sampleDoc =
      (true, ⟨sampleDoc.createMemento :: sampleMgr.undoStack, [], sampleMgr.checkpoints⟩,
       sampleDoc.restoreFromMemento sampleMem) :=
  ⟨(C5_restoreCheckpoint_contract sampleMgr "nope" sampleDoc).1 rfl,
   (C5_restoreCheckpoint_contract sampleMgr "cp" sampleDoc).2 sampleMem rfl⟩

/-- Claim C6: `undo` on an empty undo stack fails and leaves manager and
document unchanged; `redo` on an empty redo stack likewise. -/
theorem C6_empty_stack_fails (m : UndoRedoManager) (d : Document) :
    (m.undoStack = [] → m.undo d = (false, m, d))
  ∧ (m.redoStack = [] → m.redo d = (false, m, d)) := by
  constructor
  · intro h; simp [UndoRedoManager.undo, h]
  · intro h; simp [UndoRedoManager.redo, h]

theorem C6_witness :
    UndoRedoManager.empty.undo sampleDoc = (false, UndoRedoManager.empty, sampleDoc)
  ∧ UndoRedoManager.empty.redo sampleDoc = (false, UndoRedoManager.empty, sampleDoc) :=
  ⟨(C6_empty_stack_fails UndoRedoManager.empty sampleDoc).1 rfl,
   (C6_empty_stack_fails UndoRedoManager.empty sampleDoc).2 rfl⟩

/-- Claim C7: undo and redo are strict inverses — a successful `undo`
pushes the current state onto redo before restoring the popped undo
entry, a successful `redo` pushes the current state onto undo before
restoring the popped redo entry, and a `redo` right after a successful
`undo` succeeds and restores exactly the pre-undo document. -/
theorem C7_undo_redo_inverse (m : UndoRedoManager) (d : Document)
    (mem : DocumentMemento) (rest : List DocumentMemento)
    (h : m.undoStack = mem :: rest) :
    (m.undo d).1 = true
  ∧ (m.undo d).2.1.redoStack = d.createMemento :: m.redoStack
  ∧ (∀ mem2 rest2, m.redoStack = mem2 :: rest2 →
       (m.redo d).1 = true
     ∧ (m.redo d).2.1.undoStack = d.createMemento :: m.undoStack)
  ∧ ((m.undo d).2.1.redo (m.undo d).2.2).1 = true
  ∧ ((m.undo d).2.1.redo (m.undo d).2.2).2.2 = d := by
  refine ⟨?_, ?_, ?_, ?_, ?_⟩
  · simp [UndoRedoManager.undo, h]
  · simp [UndoRedoManager.undo, h]
  · intro mem2 rest2 h2
    constructor <;> simp [UndoRedoManager.redo, h2]
  · simp [UndoRedoManager.undo, UndoRedoManager.redo, h]
  · simp [UndoRedoManager.undo, UndoRedoManager.redo, h]
    rfl

theorem C7_witness :
    (sampleMgr.undo sampleDoc).1 = true
  ∧ (sampleMgr.undo sampleDoc).2.1.redoStack
      = sampleDoc.createMemento :: sampleMgr.redoStack
  ∧ ((sampleMgr.redo sampleDoc).1 = true
     ∧ (sampleMgr.redo sampleDoc).2.1.undoStack
         = sampleDoc.createMemento :: sampleMgr.undoStack)
  ∧ ((sampleMgr.undo sampleDoc).2.1.redo (sampleMgr.undo sampleDoc).2.2).1 = true
  ∧ ((sampleMgr.undo sampleDoc).2.1.redo (sampleMgr.undo sampleDoc).2.2).2.2 = sampleDoc := by
  have T := C7_undo_redo_inverse sampleMgr sampleDoc sampleMem [] rfl
  exact ⟨T.1, T.2.1, T.2.2.1 sampleMem [] rfl, T.2.2.2.1, T.2.2.2.2⟩

/-- Claim C9: a successful `restoreCheckpoint` does not consume or alter
the checkpoint map (in fact no `restoreCheckpoint` call does), so
restoring the same name again immediately afterwards succeeds and
applies the same snapshot — the resulting document is the same. -/
theorem C9_checkpoints_preserved (m : UndoRedoManager) (nm : String) (d d2 : Document) :
    (m.restoreCheckpoint nm d).2.1.checkpoints = m.checkpoints
  ∧ ((m.restoreCheckpoint nm d).1 = true →
       ((m.restoreCheckpoint nm d).2.1.restoreCheckpoint nm d2).1 = true
     ∧ ((m.restoreCheckpoint nm d).2.1.restoreCheckpoint nm d2).2.2
         = (m.restoreCheckpoint nm d).2.2) := by
  cases hl : List.lookup nm m.checkpoints with
  | none =>
      constructor
      · simp [UndoRedoManager.restoreCheckpoint, hl]
      · intro h; simp [UndoRedoManager.restoreCheckpoint, hl] at h
  | some mem =>
      constructor
      · simp [UndoRedoManager.restoreCheckpoint, hl]
      · intro _
        constructor
        · simp [UndoRedoManager.restoreCheckpoint, hl]
        · simp [UndoRedoManager.restoreCheckpoint, hl]
          rfl

theorem C9_witness :
    (sampleMgr.restoreCheckpoint "cp" sampleDoc).2.1.checkpoints = sampleMgr.checkpoints
  ∧ (((sampleMgr.restoreCheckpoint "cp" sampleDoc).2.1.restoreCheckpoint "cp" sampleDoc).1 = true
     ∧ ((sampleMgr.restoreCheckpoint "cp" sampleDoc).2.1.restoreCheckpoint "cp" sampleDoc).2.2
         = (sampleMgr.restoreCheckpoint "cp" sampleDoc).2.2) := by
  have T := C9_checkpoints_preserved sampleMgr "cp" sampleDoc sampleDoc
  exact ⟨T.1, T.2 rfl⟩

/-- Claim C10: every successful `undo` and every successful `redo`
preserves the combined length of the two stacks (one entry moves across
while the current state is pushed) and leaves the checkpoint map
unchanged. -/
theorem C10_history_length_invariant (m : UndoRedoManager) (d : Document) :
    ((m.undo d).1 = true →
       (m.undo d).2.1.undoStack.length + (m.undo d).2.1.redoStack.length
         = m.undoStack.length + m.redoStack.length
     ∧ (m.undo d).2.1.checkpoints = m.checkpoints)
  ∧ ((m.redo d).1 = true →
       (m.redo d).2.1.undoStack.length + (m.redo d).2.1.redoStack.length
         = m.undoStack.length + m.redoStack.length
     ∧ (m.redo d).2.1.checkpoints = m.checkpoints) := by
  constructor
  · intro h
    cases hu : m.undoStack with
    | nil => simp [UndoRedoManager.undo, hu] at h
    | cons mem rest =>
        constructor
        · simp [UndoRedoManager.undo, hu]; omega
        · simp [UndoRedoManager.undo, hu]
  · intro h
    cases hr : m.redoStack with
    | nil => simp [UndoRedoManager.redo, hr] at h
    | cons mem rest =>
        constructor
        · simp [UndoRedoManager.redo, hr]; omega
        · simp [UndoRedoManager.redo, hr]

theorem C10_witness :
    ((sampleMgr.undo sampleDoc).2.1.undoStack.length
       + (sampleMgr.undo sampleDoc).2.1.redoStack.length
         = sampleMgr.undoStack.length + sampleMgr.redoStack.length
     ∧ (sampleMgr.undo sampleDoc).2.1.checkpoints = sampleMgr.checkpoints)
  ∧ ((sampleMgr.redo sampleDoc).2.1.undoStack.length
       + (sampleMgr.redo sampleDoc).2.1.redoStack.length
         = sampleMgr.undoStack.length + sampleMgr.redoStack.length
     ∧ (sampleMgr.redo sampleDoc).2.1.checkpoints = sampleMgr.checkpoints) := by
  have T := C10_history_length_invariant sampleMgr sampleDoc
  exact ⟨T.1 rfl, T.2 rfl⟩

/-- Any attempt actually started found the signal unset at its
pre-attempt check. -/
theorem fetchRun_attempt_not_aborted (strat : RetryStrategy RErr) (t : AbortTrace) :
    ∀ fuel attempt k, k ∈ (fetchRun strat t fuel attempt).2 → t.preAborted k = false := by
  intro fuel
  induction fuel with
  | zero => intro attempt k hk; simp [fetchRun] at hk
  | succ n ih =>
      intro attempt k hk
      cases hp : t.preAborted attempt with
      | true => simp [fetchRun, hp] at hk
      | false =>
          cases hf : t.fetchResult attempt with
          | ok v =>
              simp [fetchRun, hp, hf] at hk
              subst hk; exact hp
          | error e =>
              cases hc : t.catchAborted attempt with
              | true =>
                  simp [fetchRun, hp, hf, hc] at hk
                  subst hk; exact hp
              | false =>
                  cases hs : strat.shouldRetry e attempt with
                  | false =>
                      simp [fetchRun, hp, hf, hc, hs] at hk
                      subst hk; exact hp
                  | true =>
                      cases hw : t.waitAborted attempt with
                      | true =>
                          simp [fetchRun, hp, hf, hc, hs, hw] at hk
                          subst hk; exact hp
                      | false =>
                          simp [fetchRun, hp, hf, hc, hs, hw] at hk
                          rcases hk with hk | hk
                          · subst hk; exact hp
                          · exact ih (attempt + 1) k hk

/-- A monotone signal, once set at the pre-check of attempt `a`, is still
set at the pre-check of every later attempt. -/
theorem AbortTrace.preAborted_of_le (t : AbortTrace) (hm : t.Monotone) :
    ∀ a k, a ≤ k → t.preAborted a = true → t.preAborted k = true := by
  intro a k hak ha
  induction hak with
  | refl => exact ha
  | step h ih => exact hm.2.2 _ (hm.2.1 _ (hm.1 _ ih))

/-- A non-`AbortError` failure can only arise at an iteration whose
pre-check found the signal unset, and only in one of two ways: the
catch check observed the signal set right after the operation's own
failure (the error is rethrown unchanged), or the signal was unset there
too and the policy declined the retry (ordinary give-up). -/
theorem fetchRun_failure_cases (strat : RetryStrategy RErr) (t : AbortTrace) :
    ∀ fuel attempt e, (fetchRun strat t fuel attempt).1 = some (RunResult.failure e) →
      e = RErr.abortError
      ∨ (∃ k, t.fetchResult k = Except.error e ∧ t.catchAborted k = true
           ∧ t.preAborted k = false)
      ∨ (∃ k, t.fetchResult k = Except.error e ∧ t.catchAborted k = false
           ∧ strat.shouldRetry e k = false) := by
  intro fuel
  induction fuel with
  | zero => intro attempt e h; simp [fetchRun] at h
  | succ n ih =>
      intro attempt e h
      cases hp : t.preAborted attempt with
      | true =>
          simp [fetchRun, hp] at h
          exact Or.inl h.symm
      | false =>
          cases hf : t.fetchResult attempt with
          | ok v => simp [fetchRun, hp, hf] at h
          | error e0 =>
              cases hc : t.catchAborted attempt with
              | true =>
                  simp [fetchRun, hp, hf, hc] at h
                  subst h
                  exact Or.inr (Or.inl ⟨attempt, hf, hc, hp⟩)
              | false =>
                  cases hs : strat.shouldRetry e0 attempt with
                  | false =>
                      simp [fetchRun, hp, hf, hc, hs] at h
                      subst h
                      exact Or.inr (Or.inr ⟨attempt, hf, hc, hs⟩)
                  | true =>
                      cases hw : t.waitAborted attempt with
                      | true =>
                          simp [fetchRun, hp, hf, hc, hs, hw] at h
                          exact Or.inl h.symm
                      | false =>
                          simp [fetchRun, hp, hf, hc, hs, hw] at h
                          exact ih (attempt + 1) e h

/-- If some started attempt `k` fails, the catch check still finds the
signal unset, the policy allows a retry, and the abort then fires during
the delay wait, the whole run fails with the `AbortError`. -/
theorem fetchRun_wait_abort (strat : RetryStrategy RErr) (t : AbortTrace) :
    ∀ fuel attempt k e, k ∈ (fetchRun strat t fuel attempt).2 →
      t.fetchResult k = Except.error e → t.catchAborted k = false →
      strat.shouldRetry e k = true → t.waitAborted k = true →
      (fetchRun strat t fuel attempt).1 = some (RunResult.failure RErr.abortError) := by
  intro fuel
  induction fuel with
  | zero => intro attempt k e hk _ _ _ _; simp [fetchRun] at hk
  | succ n ih =>
      intro attempt k e hk hf hc hs hw
      cases hp : t.preAborted attempt with
      | true => simp [fetchRun, hp] at hk
      | false =>
          cases hf0 : t.fetchResult attempt with
          | ok v =>
              simp [fetchRun, hp, hf0] at hk
              subst hk
              simp [hf0] at hf
          | error e0 =>
              cases hc0 : t.catchAborted attempt with
              | true =>
                  simp [fetchRun, hp, hf0, hc0] at hk
                  subst hk
                  simp [hc0] at hc
              | false =>
                  cases hs0 : strat.shouldRetry e0 attempt with
                  | false =>
                      simp [fetchRun, hp, hf0, hc0, hs0] at hk
                      subst hk
                      simp [hf0] at hf
                      subst hf
                      simp [hs0] at hs
                  | true =>
                      cases hw0 : t.waitAborted attempt with
                      | true => simp [fetchRun, hp, hf0, hc0, hs0, hw0]
                      | false =>
                          simp [fetchRun, hp, hf0, hc0, hs0, hw0] at hk ⊢
                          rcases hk with hk | hk
                          · subst hk
                            simp [hw0] at hw
                          · exact ih (attempt + 1) k e hk hf hc hs hw

/-- If some started attempt `k` fails, the catch check still finds the
signal unset, the policy allows a retry, the wait completes undisturbed,
and the signal is then found set at the next pre-attempt check, the run
fails with the `AbortError` (or runs out of fuel first). -/
theorem fetchRun_pre_abort_next (strat : RetryStrategy RErr) (t : AbortTrace) :
    ∀ fuel attempt k e, k ∈ (fetchRun strat t fuel attempt).2 →
      t.fetchResult k = Except.error e → t.catchAborted k = false →
      strat.shouldRetry e k = true → t.waitAborted k = false →
      t.preAborted (k + 1) = true →
      (fetchRun strat t fuel attempt).1 = some (RunResult.failure RErr.abortError)
      ∨ (fetchRun strat t fuel attempt).1 = none := by
  intro fuel
  induction fuel with
  | zero => intro attempt k e hk _ _ _ _ _; simp [fetchRun] at hk
  | succ n ih =>
      intro attempt k e hk hf hc hs hw hnext
      cases hp : t.preAborted attempt with
      | true => simp [fetchRun, hp] at hk
      | false =>
          cases hf0 : t.fetchResult attempt with
          | ok v =>
              simp [fetchRun, hp, hf0] at hk
              subst hk
              simp [hf0] at hf
          | error e0 =>
              cases hc0 : t.catchAborted attempt with
              | true =>
                  simp [fetchRun, hp, hf0, hc0] at hk
                  subst hk
                  simp [hc0] at hc
              | false =>
                  cases hs0 : strat.shouldRetry e0 attempt with
                  | false =>
                      simp [fetchRun, hp, hf0, hc0, hs0] at hk
                      subst hk
                      simp [hf0] at hf
                      subst hf
                      simp [hs0] at hs
                  | true =>
                      cases hw0 : t.waitAborted attempt with
                      | true =>
                          simp [fetchRun, hp, hf0, hc0, hs0, hw0] at hk
                          subst hk
                          simp [hw0] at hw
                      | false =>
                          simp [fetchRun, hp, hf0, hc0, hs0, hw0] at hk ⊢
                          rcases hk with hk | hk
                          · subst hk
                            cases n with
                            | zero => exact Or.inr (by simp [fetchRun])
                            | succ m => exact Or.inl (by simp [fetchRun, hnext])
                          · exact ih (attempt + 1) k e hk hf hc hs hw hnext

/-- Claim C8 (amended): for a monotone abort signal, (1) once the signal
is set at the pre-check of attempt `a`, no attempt with index ≥ `a` is
ever started; (2) a signal already set at the initial pre-attempt check
makes the run fail with the cancellation-specific `AbortError`; (3) an
abort firing during the delay wait of a started attempt makes the run
fail with the `AbortError`; (4) a signal set between a completed wait
and the next pre-attempt check makes the run fail with the `AbortError`
(unless the fuel ends first); (5) any failure that is not the
`AbortError` is an error the operation itself raised at an attempt whose
pre-check found the signal unset, and only because either the catch
check observed the signal set right after that failure (the amended
exception: the original error is surfaced instead of an `AbortError`) or
the signal was unset there too and the policy declined the retry
(ordinary give-up after retries, no cancellation observed). -/
theorem C8_cancellation_cooperative (strat : RetryStrategy RErr) (t : AbortTrace)
    (hm : t.Monotone) :
    (∀ a k fuel, t.preAborted a = true → a ≤ k →
       k ∉ (fetchRun strat t fuel 0).2)
  ∧ (t.preAborted 0 = true → ∀ fuel,
       fetchWithRetry strat t (fuel + 1) 0 = some (RunResult.failure RErr.abortError))
  ∧ (∀ fuel attempt k e, k ∈ (fetchRun strat t fuel attempt).2 →
       t.fetchResult k = Except.error e → t.catchAborted k = false →
       strat.shouldRetry e k = true → t.waitAborted k = true →
       fetchWithRetry strat t fuel attempt = some (RunResult.failure RErr.abortError))
  ∧ (∀ fuel attempt k e, k ∈ (fetchRun strat t fuel attempt).2 →
       t.fetchResult k = Except.error e → t.catchAborted k = false →
       strat.shouldRetry e k = true → t.waitAborted k = false →
       t.preAborted (k + 1) = true →
       fetchWithRetry strat t fuel attempt = some (RunResult.failure RErr.abortError)
       ∨ fetchWithRetry strat t fuel attempt = none)
  ∧ (∀ fuel attempt e, fetchWithRetry strat t fuel attempt = some (RunResult.failure e) →
       e = RErr.abortError
       ∨ (∃ k, t.fetchResult k = Except.error e ∧ t.catchAborted k = true
            ∧ t.preAborted k = false)
       ∨ (∃ k, t.fetchResult k = Except.error e ∧ t.catchAborted k = false
            ∧ strat.shouldRetry e k = false)) := by
  refine ⟨?_, ?_, ?_, ?_, ?_⟩
  · intro a k fuel ha hak hk
    have hfalse := fetchRun_attempt_not_aborted strat t fuel 0 k hk
    have htrue := AbortTrace.preAborted_of_le t hm a k hak ha
    simp [htrue] at hfalse
  · intro h fuel
    simp [fetchWithRetry, fetchRun, h]
  · intro fuel attempt k e hk hf hc hs hw
    exact fetchRun_wait_abort strat t fuel attempt k e hk hf hc hs hw
  · intro fuel attempt k e hk hf hc hs hw hnext
    exact fetchRun_pre_abort_next strat t fuel attempt k e hk hf hc hs hw hnext
  · intro fuel attempt e h
    exact fetchRun_failure_cases strat t fuel attempt e h

theorem C8_witness :
    0 ∉ (fetchRun (FixedRetryStrategy RErr 3 500) abortedTrace 5 0).2
  ∧ fetchWithRetry (FixedRetryStrategy RErr 3 500) abortedTrace (4 + 1) 0
      = some (RunResult.failure RErr.abortError)
  ∧ fetchWithRetry (FixedRetryStrategy RErr 3 500) waitTrace 5 0
      = some (RunResult.failure RErr.abortError)
  ∧ (fetchWithRetry (FixedRetryStrategy RErr 3 500) gapTrace 5 0
       = some (RunResult.failure RErr.abortError)
     ∨ fetchWithRetry (FixedRetryStrategy RErr 3 500) gapTrace 5 0 = none)
  ∧ (RErr.opError 7 = RErr.abortError
     ∨ (∃ k, ceTrace.fetchResult k = Except.error (RErr.opError 7)
          ∧ ceTrace.catchAborted k = true ∧ ceTrace.preAborted k = false)
     ∨ (∃ k, ceTrace.fetchResult k = Except.error (RErr.opError 7)
          ∧ ceTrace.catchAborted k = false
          ∧ (FixedRetryStrategy RErr 3 500).shouldRetry (RErr.opError 7) k = false)) := by
  have hmA : abortedTrace.Monotone :=
    ⟨fun _ _ => rfl, fun _ _ => rfl, fun _ _ => rfl⟩
  have hmW : waitTrace.Monotone :=
    ⟨fun _ h => h, fun _ _ => rfl,
     fun k _ => decide_eq_true (Nat.succ_le_succ (Nat.zero_le k))⟩
  have hmG : gapTrace.Monotone :=
    ⟨fun _ h => h, fun _ h => h,
     fun k _ => decide_eq_true (Nat.succ_le_succ (Nat.zero_le k))⟩
  have hmC : ceTrace.Monotone :=
    ⟨fun _ _ => rfl, fun _ _ => rfl,
     fun k _ => decide_eq_true (Nat.succ_le_succ (Nat.zero_le k))⟩
  have TA := C8_cancellation_cooperative (FixedRetryStrategy RErr 3 500) abortedTrace hmA
  have TW := C8_cancellation_cooperative (FixedRetryStrategy RErr 3 500) waitTrace hmW
  have TG := C8_cancellation_cooperative (FixedRetryStrategy RErr 3 500) gapTrace hmG
  have TC := C8_cancellation_cooperative (FixedRetryStrategy RErr 3 500) ceTrace hmC
  refine ⟨TA.1 0 0 5 rfl (Nat.le_refl 0), TA.2.1 rfl 4, ?_, ?_, ?_⟩
  · exact TW.2.2.1 5 0 0 (RErr.opError 3) (by decide) rfl rfl rfl rfl
  · exact TG.2.2.2.1 5 0 0 (RErr.opError 5) (by decide) rfl rfl rfl rfl rfl
  · exact TC.2.2.2.2 5 0 (RErr.opError 7) rfl

/-- Claim C8 (counterexample): in the run over `ceTrace` the operation
fails with its own error at attempt 0 and the signal is set during that
attempt (observed at the catch check, still set at every later
observation point); the wrapper starts no further attempt, but it fails
with the operation's error, not with the cancellation-specific
`AbortError` the claim requires. -/
theorem C8_counterexample :
    fetchWithRetry (FixedRetryStrategy RErr 3 500) ceTrace 5 0
      = some (RunResult.failure (RErr.opError 7))
  ∧ (fetchRun (FixedRetryStrategy RErr 3 500) ceTrace 5 0).2 = [0]
  ∧ ceTrace.preAborted 0 = false
  ∧ ceTrace.catchAborted 0 = true
  ∧ ceTrace.waitAborted 0 = true
  ∧ ceTrace.preAborted 1 = true
  ∧ RErr.opError 7 ≠ RErr.abortError := by
  refine ⟨rfl, rfl, rfl, rfl, rfl, rfl, ?_⟩
  decide

end DesignPatterns
